import Mathlib

/-!
Verification of the ReprodLocal persistence layer.

This file gives a shallow embedding of the parts of the repository that
carry durable logic, and proves (or refutes) the specified properties
about them:

* the TypeScript API layer (`src/api/api.ts`, bundled at the end of
  `src/components/VideoPlayer.tsx`): the `VideoProgress` data model, the
  in-memory upsert `videosApi.updateVideoProgress`, the periodic
  progress tick of `VideoPlayer.startProgressTracking`, the
  error-fallback course API `coursesApi`, and `utils.getProgressPercentage`;
* the SQLite setup script (`scripts/setup-database.ps1`): the
  `Initialize-Database` function with its `CREATE TABLE IF NOT EXISTS` /
  `CREATE INDEX IF NOT EXISTS` schema, the `INSERT OR IGNORE` default
  settings seed, the `INSERT OR REPLACE` version metadata, and the
  `ON DELETE CASCADE` foreign-key graph.

JavaScript numbers are modelled as `ℚ` (all the constants involved are
exactly representable and far from any floating-point boundary), strings
as `String`, and the fallible Tauri `invoke` boundary as an explicit
`Except` argument.
-/

namespace Api

/-! ## TypeScript API layer: data model (interfaces in api.ts) -/

/-- The `VideoProgress` interface of api.ts: `id`, `video_id`,
`current_time`, `duration`, `completed`, `last_watched`. -/
structure VideoProgress where
  id : String
  video_id : String
  current_time : ℚ
  duration : ℚ
  completed : Bool
  last_watched : String
deriving DecidableEq

/-- The `VideoStatus` interface of api.ts. -/
structure VideoStatus where
  is_playing : Bool
  current_time : ℚ
  duration : ℚ
  volume : ℚ
deriving DecidableEq

/-- The `Course` interface of api.ts. -/
structure Course where
  id : String
  name : String
  path : String
  created_at : String
  last_accessed : Option String
deriving DecidableEq

/-- The `Module` interface of api.ts. -/
structure Module where
  id : String
  course_id : String
  name : String
  path : String
  order_index : ℕ
deriving DecidableEq

/-- The `mockCourses` array of api.ts. -/
def mockCourses : List Course :=
  [{ id := "1", name := "Curso de React Avançado", path := "/cursos/react-avancado",
     created_at := "2024-01-15T10:00:00Z", last_accessed := some "2024-01-20T15:30:00Z" },
   { id := "2", name := "TypeScript Fundamentals", path := "/cursos/typescript-fundamentals",
     created_at := "2024-01-10T09:00:00Z", last_accessed := some "2024-01-18T14:20:00Z" }]

/-- The `mockModules` array of api.ts. -/
def mockModules : List Module :=
  [{ id := "1", course_id := "1", name := "Introdução ao React",
     path := "/cursos/react-avancado/modulo-1", order_index := 1 },
   { id := "2", course_id := "1", name := "Hooks Avançados",
     path := "/cursos/react-avancado/modulo-2", order_index := 2 },
   { id := "3", course_id := "2", name := "Tipos Básicos",
     path := "/cursos/typescript-fundamentals/modulo-1", order_index := 1 }]

/-- The initial contents of the `mockVideoProgress` array of api.ts. -/
def mockVideoProgress : List VideoProgress :=
  [{ id := "1", video_id := "1", current_time := 600, duration := 1200,
     completed := false, last_watched := "2024-01-20T15:30:00Z" },
   { id := "2", video_id := "3", current_time := 0, duration := 300,
     completed := false, last_watched := "2024-01-20T16:00:00Z" }]

/-! ## videosApi.updateVideoProgress

The mock store is a JS array; `find` returns the first row whose
`video_id` matches and the found object is mutated in place, otherwise a
new row (id `Date.now().toString()`, `last_watched` the current ISO
time) is pushed at the end.  The nondeterministic environment inputs
(the fresh id and the current time string) are explicit parameters. -/

/-- Mutation of the first row whose `video_id` matches, as performed on
the object returned by `mockVideoProgress.find` in
`videosApi.updateVideoProgress`: `current_time`, `duration`,
`completed` and `last_watched` are overwritten, everything else kept. -/
def updateFirst (rows : List VideoProgress) (videoId : String)
    (currentTime duration : ℚ) (completed : Bool) (now : String) : List VideoProgress :=
  match rows with
  | [] => []
  | p :: ps =>
    if p.video_id == videoId then
      { p with current_time := currentTime, duration := duration,
               completed := completed, last_watched := now } :: ps
    else
      p :: updateFirst ps videoId currentTime duration completed now

/-- `videosApi.updateVideoProgress(videoId, currentTime, duration, completed)`:
update the existing row in place when one exists, otherwise push a new
row with the given fields. -/
def updateVideoProgress (rows : List VideoProgress) (videoId : String)
    (currentTime duration : ℚ) (completed : Bool) (freshId now : String) : List VideoProgress :=
  if rows.any (fun p => p.video_id == videoId) then
    updateFirst rows videoId currentTime duration completed now
  else
    rows ++ [{ id := freshId, video_id := videoId, current_time := currentTime,
               duration := duration, completed := completed, last_watched := now }]

/-- One iteration of the interval callback in
`VideoPlayer.startProgressTracking`: it computes
`completed = status.current_time >= status.duration * 0.95` and calls
`videosApi.updateVideoProgress(video.id, status.current_time,
status.duration, completed)`. -/
def progressTick (rows : List VideoProgress) (videoId : String)
    (status : VideoStatus) (freshId now : String) : List VideoProgress :=
  updateVideoProgress rows videoId status.current_time status.duration
    (decide (status.current_time ≥ status.duration * (95 / 100))) freshId now

/-- `mockVideoProgress.find(p => p.video_id === videoId)`, the read used
by `videosApi.getVideoProgress`. -/
def lookupProgress (rows : List VideoProgress) (videoId : String) : Option VideoProgress :=
  rows.find? (fun p => p.video_id == videoId)

/-- The argument tuple of one `updateVideoProgress` call, together with
the environment-chosen fresh id and timestamp. -/
structure TickCall where
  videoId : String
  currentTime : ℚ
  duration : ℚ
  completed : Bool
  freshId : String
  now : String

/-- A sequence of `updateVideoProgress` calls applied in order. -/
def applyCalls (rows : List VideoProgress) (calls : List TickCall) : List VideoProgress :=
  calls.foldl
    (fun acc c => updateVideoProgress acc c.videoId c.currentTime c.duration c.completed c.freshId c.now)
    rows

/-- At most one `VideoProgress` row per video id. -/
def atMostOnePerVideo (rows : List VideoProgress) : Prop :=
  ∀ v : String, rows.countP (fun p => p.video_id == v) ≤ 1

/-- A one-row store whose single row is already completed; used to
exercise an automatic tick below the completion threshold. -/
def progressCexStore : List VideoProgress :=
  [{ id := "p1", video_id := "v1", current_time := 1150, duration := 1200,
     completed := true, last_watched := "t0" }]

/-! ## coursesApi: error fallback to mock data

Every operation wraps the Tauri `invoke` in try/catch; the backend
outcome is modelled as an explicit `Except` argument.  On `catch`, the
operation logs and resolves with the mock fallback instead of
re-throwing. -/

/-- `coursesApi.scanCourses`: on backend failure, resolve with `mockCourses`. -/
def scanCourses (backend : Except String (List Course)) : Except String (List Course) :=
  match backend with
  | .ok cs => .ok cs
  | .error _ => .ok mockCourses

/-- `coursesApi.getAllCourses`: on backend failure, resolve with `mockCourses`. -/
def getAllCourses (backend : Except String (List Course)) : Except String (List Course) :=
  match backend with
  | .ok cs => .ok cs
  | .error _ => .ok mockCourses

/-- `coursesApi.getCourseModules(courseId)`: on backend failure, resolve
with the mock modules filtered by `course_id`. -/
def getCourseModules (backend : Except String (List Module)) (courseId : String) :
    Except String (List Module) :=
  match backend with
  | .ok ms => .ok ms
  | .error _ => .ok (mockModules.filter (fun m => m.course_id == courseId))

/-- The in-place mutation of the first matching mock course performed in
the catch branch of `coursesApi.updateCourseLastAccessed`. -/
def updateLastAccessedFirst (courses : List Course) (courseId now : String) : List Course :=
  match courses with
  | [] => []
  | c :: cs =>
    if c.id == courseId then { c with last_accessed := some now } :: cs
    else c :: updateLastAccessedFirst cs courseId now

/-- `coursesApi.updateCourseLastAccessed(courseId)`: resolves with `()`
in both branches; on backend failure it silently mutates the mock store
(returned as the second component). -/
def updateCourseLastAccessed (backend : Except String Unit) (store : List Course)
    (courseId now : String) : Except String Unit × List Course :=
  match backend with
  | .ok _ => (.ok (), store)
  | .error _ => (.ok (), updateLastAccessedFirst store courseId now)

/-- `coursesApi.scanCustomDirectory(directoryPath)`: on backend failure,
resolve with `mockCourses`. -/
def scanCustomDirectory (backend : Except String (List Course)) (_directoryPath : String) :
    Except String (List Course) :=
  match backend with
  | .ok cs => .ok cs
  | .error _ => .ok mockCourses

/-! ## utils.getProgressPercentage -/

/-- JavaScript `Math.round`: round half toward positive infinity. -/
def jsRound (q : ℚ) : ℤ := ⌊q + 1 / 2⌋

/-- `utils.getProgressPercentage(progress)`: `0` when
`progress.duration === 0`, otherwise
`Math.round((progress.current_time / progress.duration) * 100)`. -/
def getProgressPercentage (progress : VideoProgress) : ℤ :=
  if progress.duration = 0 then 0
  else jsRound (progress.current_time / progress.duration * 100)

end Api

namespace Sql

/-! ## setup-database.ps1: Initialize-Database

The script pipes three SQL batches into sqlite3: `createTablesSQL`
(`CREATE TABLE IF NOT EXISTS` for the nine tables), `createIndexesSQL`
(`CREATE INDEX IF NOT EXISTS` for the eleven indexes), and
`defaultSettingsSQL` (`INSERT OR IGNORE` of the seven default settings
followed by `INSERT OR REPLACE` of the three `database_metadata` rows,
all timestamped `datetime('now')`).  The store is modelled by the list
of existing table names, index names, the pre-existing data rows (which
none of the statements touch), and the contents of the `user_settings`
and `database_metadata` tables.  The single run timestamp
`datetime('now')` is an explicit parameter. -/

/-- A row of the `user_settings` table. -/
structure UserSetting where
  id : String
  setting_key : String
  setting_value : String
  setting_type : String
  updated_at : String
deriving DecidableEq

/-- A row of the `database_metadata` table. -/
structure MetaRow where
  key : String
  value : String
  updated_at : String
deriving DecidableEq

/-- The seven default settings of `defaultSettingsSQL`, with
`updated_at = datetime('now')`. -/
def defaultSettings (now : String) : List UserSetting :=
  [{ id := "setting_theme", setting_key := "theme", setting_value := "dark",
     setting_type := "string", updated_at := now },
   { id := "setting_auto_play", setting_key := "auto_play_next", setting_value := "true",
     setting_type := "boolean", updated_at := now },
   { id := "setting_speed", setting_key := "playback_speed", setting_value := "1.0",
     setting_type := "number", updated_at := now },
   { id := "setting_volume", setting_key := "volume", setting_value := "0.8",
     setting_type := "number", updated_at := now },
   { id := "setting_auto_save", setting_key := "auto_save_progress", setting_value := "true",
     setting_type := "boolean", updated_at := now },
   { id := "setting_subtitles", setting_key := "show_subtitles", setting_value := "false",
     setting_type := "boolean", updated_at := now },
   { id := "setting_language", setting_key := "language", setting_value := "pt-BR",
     setting_type := "string", updated_at := now }]

/-- A candidate `user_settings` insert conflicts when an existing row
matches its `id` (PRIMARY KEY) or its `setting_key` (UNIQUE). -/
def settingConflict (rows : List UserSetting) (r : UserSetting) : Bool :=
  rows.any (fun x => x.id == r.id || x.setting_key == r.setting_key)

/-- `INSERT OR IGNORE INTO user_settings`: the insert is dropped on a
PRIMARY KEY or UNIQUE conflict, otherwise the row is appended. -/
def insertOrIgnoreSetting (rows : List UserSetting) (r : UserSetting) : List UserSetting :=
  if settingConflict rows r then rows else rows ++ [r]

/-- The `INSERT OR IGNORE` batch of `defaultSettingsSQL`. -/
def insertDefaultSettings (rows : List UserSetting) (now : String) : List UserSetting :=
  (defaultSettings now).foldl insertOrIgnoreSetting rows

/-- `INSERT OR REPLACE INTO database_metadata`: a conflicting row is
deleted and the new row inserted. -/
def insertOrReplaceMeta (rows : List MetaRow) (r : MetaRow) : List MetaRow :=
  rows.filter (fun x => !(x.key == r.key)) ++ [r]

/-- The `INSERT OR REPLACE` batch of `defaultSettingsSQL`: rows
`('version', '2', now)`, `('created_at', now, now)`,
`('last_migration', now, now)`. -/
def setDatabaseVersion (rows : List MetaRow) (now : String) : List MetaRow :=
  insertOrReplaceMeta
    (insertOrReplaceMeta
      (insertOrReplaceMeta rows { key := "version", value := "2", updated_at := now })
      { key := "created_at", value := now, updated_at := now })
    { key := "last_migration", value := now, updated_at := now }

/-- The nine tables of `createTablesSQL`. -/
def allTableNames : List String :=
  ["courses", "modules", "videos", "video_progress", "user_notes",
   "video_bookmarks", "user_settings", "activity_log", "database_metadata"]

/-- The eleven indexes of `createIndexesSQL`. -/
def allIndexNames : List String :=
  ["idx_modules_course_id", "idx_videos_module_id", "idx_videos_course_id",
   "idx_video_progress_video_id", "idx_user_notes_video_id", "idx_user_notes_course_id",
   "idx_user_notes_timestamp", "idx_video_bookmarks_video_id", "idx_activity_log_type",
   "idx_activity_log_created", "idx_user_settings_key"]

/-- `CREATE TABLE IF NOT EXISTS` / `CREATE INDEX IF NOT EXISTS`: the
name is added only when absent. -/
def createIfAbsent (names : List String) (n : String) : List String :=
  if names.any (fun x => x == n) then names else names ++ [n]

/-- The `createTablesSQL` batch. -/
def runCreateTables (names : List String) : List String :=
  allTableNames.foldl createIfAbsent names

/-- The `createIndexesSQL` batch. -/
def runCreateIndexes (names : List String) : List String :=
  allIndexNames.foldl createIfAbsent names

/-- The parts of an on-disk store that `Initialize-Database` can touch:
schema objects, pre-existing data rows (opaque: no statement of the
script reads or writes them), `user_settings` rows and
`database_metadata` rows. -/
structure SqlStore where
  tableNames : List String
  indexNames : List String
  dataRows : List String
  user_settings : List UserSetting
  database_metadata : List MetaRow
deriving DecidableEq

/-- `Initialize-Database` (setup-database.ps1, lines 36-219): run the
three SQL batches in order against the store, at run time `now`. -/
def initDatabase (s : SqlStore) (now : String) : SqlStore :=
  { tableNames := runCreateTables s.tableNames,
    indexNames := runCreateIndexes s.indexNames,
    dataRows := s.dataRows,
    user_settings := insertDefaultSettings s.user_settings now,
    database_metadata := setDatabaseVersion s.database_metadata now }

/-- `SELECT value FROM database_metadata WHERE key = k` (first match). -/
def metaValue (s : SqlStore) (k : String) : Option String :=
  (s.database_metadata.find? (fun x => x.key == k)).map (fun x => x.value)

/-- An empty store: no tables, no rows. -/
def emptyStore : SqlStore :=
  { tableNames := [], indexNames := [], dataRows := [],
    user_settings := [], database_metadata := [] }

end Sql

namespace Schema

/-! ## The ON DELETE CASCADE graph of createTablesSQL

Only the key columns matter for deletion, so the row models carry just
the primary key and the foreign keys declared in the schema:
`modules.course_id → courses`, `videos.module_id → modules` and
`videos.course_id → courses`, `video_progress.video_id → videos`,
`user_notes.{video_id, course_id, module_id}` (all nullable) →
`videos / courses / modules`, `video_bookmarks.video_id → videos` — all
`ON DELETE CASCADE` — and `activity_log`, which declares no foreign key
at all.  `deleteCourse` is SQLite's transitive cascade on
`DELETE FROM courses WHERE id = cid`. -/

/-- A `courses` row (key column only). -/
structure CourseRow where
  id : String
deriving DecidableEq

/-- A `modules` row (key columns only). -/
structure ModuleRow where
  id : String
  course_id : String
deriving DecidableEq

/-- A `videos` row (key columns only). -/
structure VideoRow where
  id : String
  module_id : String
  course_id : String
deriving DecidableEq

/-- A `video_progress` row (key columns only). -/
structure ProgressRow where
  id : String
  video_id : String
deriving DecidableEq

/-- A `user_notes` row: its three entity references are nullable. -/
structure NoteRow where
  id : String
  video_id : Option String
  course_id : Option String
  module_id : Option String
deriving DecidableEq

/-- A `video_bookmarks` row (key columns only). -/
structure BookmarkRow where
  id : String
  video_id : String
deriving DecidableEq

/-- An `activity_log` row: `entity_id`/`entity_type` are plain text,
not covered by any foreign key. -/
structure ActivityRow where
  id : String
  activity_type : String
  entity_id : String
  entity_type : String
deriving DecidableEq

/-- The relational state: one list of rows per table with a foreign
key, plus the log. -/
structure Db where
  courses : List CourseRow
  modules : List ModuleRow
  videos : List VideoRow
  video_progress : List ProgressRow
  user_notes : List NoteRow
  video_bookmarks : List BookmarkRow
  activity_log : List ActivityRow
deriving DecidableEq

/-- A module is cascade-deleted when its owning course is the deleted one. -/
def moduleDeleted (cid : String) (m : ModuleRow) : Bool :=
  m.course_id == cid

/-- A video is cascade-deleted through either of its two foreign keys:
directly via `course_id`, or via a cascade-deleted module. -/
def videoDeleted (db : Db) (cid : String) (v : VideoRow) : Bool :=
  v.course_id == cid || db.modules.any (fun m => moduleDeleted cid m && m.id == v.module_id)

/-- A progress row is cascade-deleted when its video is. -/
def progressDeleted (db : Db) (cid : String) (p : ProgressRow) : Bool :=
  db.videos.any (fun v => videoDeleted db cid v && v.id == p.video_id)

/-- A bookmark is cascade-deleted when its video is. -/
def bookmarkDeleted (db : Db) (cid : String) (b : BookmarkRow) : Bool :=
  db.videos.any (fun v => videoDeleted db cid v && v.id == b.video_id)

/-- A note is cascade-deleted through any of its three nullable foreign
keys. -/
def noteDeleted (db : Db) (cid : String) (n : NoteRow) : Bool :=
  n.course_id == some cid
    || db.modules.any (fun m => moduleDeleted cid m && n.module_id == some m.id)
    || db.videos.any (fun v => videoDeleted db cid v && n.video_id == some v.id)

/-- `DELETE FROM courses WHERE id = cid` with the declared
`ON DELETE CASCADE` graph; `activity_log` has no foreign key and is
untouched. -/
def deleteCourse (db : Db) (cid : String) : Db :=
  { courses := db.courses.filter (fun c => !(c.id == cid)),
    modules := db.modules.filter (fun m => !(moduleDeleted cid m)),
    videos := db.videos.filter (fun v => !(videoDeleted db cid v)),
    video_progress := db.video_progress.filter (fun p => !(progressDeleted db cid p)),
    user_notes := db.user_notes.filter (fun n => !(noteDeleted db cid n)),
    video_bookmarks := db.video_bookmarks.filter (fun b => !(bookmarkDeleted db cid b)),
    activity_log := db.activity_log }

/-- A nullable reference is intact when absent or when its target check
holds. -/
def optionalRefOk (o : Option String) (ok : String → Bool) : Bool :=
  match o with
  | none => true
  | some x => ok x

/-- Referential integrity of a state: every declared foreign key points
at an existing row. -/
def refIntegrity (db : Db) : Bool :=
  db.modules.all (fun m => db.courses.any (fun c => c.id == m.course_id)) &&
  db.videos.all (fun v =>
    db.modules.any (fun m => m.id == v.module_id) &&
    db.courses.any (fun c => c.id == v.course_id)) &&
  db.video_progress.all (fun p => db.videos.any (fun v => v.id == p.video_id)) &&
  db.video_bookmarks.all (fun b => db.videos.any (fun v => v.id == b.video_id)) &&
  db.user_notes.all (fun n =>
    optionalRefOk n.course_id (fun x => db.courses.any (fun c => c.id == x)) &&
    optionalRefOk n.module_id (fun x => db.modules.any (fun m => m.id == x)) &&
    optionalRefOk n.video_id (fun x => db.videos.any (fun v => v.id == x)))

/-- What deleting course `cid` must achieve: every row transitively
reachable from the course is gone, no surviving row dangles, and the
activity log is untouched. -/
def cascadeSpec (db : Db) (cid : String) : Prop :=
  (∀ c ∈ (deleteCourse db cid).courses, c.id ≠ cid) ∧
  (∀ m ∈ (deleteCourse db cid).modules, m.course_id ≠ cid) ∧
  (∀ v ∈ (deleteCourse db cid).videos, videoDeleted db cid v = false) ∧
  (∀ p ∈ (deleteCourse db cid).video_progress, ∀ v ∈ db.videos, v.id = p.video_id →
    videoDeleted db cid v = false) ∧
  (∀ b ∈ (deleteCourse db cid).video_bookmarks, ∀ v ∈ db.videos, v.id = b.video_id →
    videoDeleted db cid v = false) ∧
  (∀ n ∈ (deleteCourse db cid).user_notes, n.course_id ≠ some cid ∧
    (∀ m ∈ db.modules, n.module_id = some m.id → m.course_id ≠ cid) ∧
    (∀ v ∈ db.videos, n.video_id = some v.id → videoDeleted db cid v = false)) ∧
  (∀ m ∈ (deleteCourse db cid).modules, ∃ c ∈ (deleteCourse db cid).courses, c.id = m.course_id) ∧
  (∀ v ∈ (deleteCourse db cid).videos,
    (∃ m ∈ (deleteCourse db cid).modules, m.id = v.module_id) ∧ (∃ c ∈ (deleteCourse db cid).courses, c.id = v.course_id)) ∧
  (∀ p ∈ (deleteCourse db cid).video_progress, ∃ v ∈ (deleteCourse db cid).videos, v.id = p.video_id) ∧
  (∀ b ∈ (deleteCourse db cid).video_bookmarks, ∃ v ∈ (deleteCourse db cid).videos, v.id = b.video_id) ∧
  (∀ n ∈ (deleteCourse db cid).user_notes,
    optionalRefOk n.course_id (fun x => (deleteCourse db cid).courses.any (fun c => c.id == x)) = true ∧
    optionalRefOk n.module_id (fun x => (deleteCourse db cid).modules.any (fun m => m.id == x)) = true ∧
    optionalRefOk n.video_id (fun x => (deleteCourse db cid).videos.any (fun v => v.id == x)) = true) ∧
  (deleteCourse db cid).activity_log = db.activity_log

/-- A small populated store: one course owning one module, one video,
its progress row, a note, a bookmark, and one activity entry. -/
def sampleDb : Db :=
  { courses := [{ id := "c1" }],
    modules := [{ id := "m1", course_id := "c1" }],
    videos := [{ id := "v1", module_id := "m1", course_id := "c1" }],
    video_progress := [{ id := "p1", video_id := "v1" }],
    user_notes := [{ id := "n1", video_id := some "v1", course_id := some "c1",
                     module_id := some "m1" }],
    video_bookmarks := [{ id := "b1", video_id := "v1" }],
    activity_log := [{ id := "a1", activity_type := "course_created",
                       entity_id := "c1", entity_type := "course" }] }

end Schema

namespace Sqlite

/-! ## The video_progress write path at the database level

The Rust/SQLite command behind `videosApi.updateVideoProgress` is not
part of this repository snapshot; only its schema
(`video_progress` in `createTablesSQL`, with
`watch_count INTEGER NOT NULL DEFAULT 1`) and its TypeScript caller
exist in src.  The write path below is therefore modelled from the
spec, against that schema. -/

/-- A full `video_progress` row as declared in `createTablesSQL`,
including `watch_count INTEGER NOT NULL DEFAULT 1`. -/
structure ProgressRow where
  id : String
  video_id : String
  current_time : ℚ
  duration : ℚ
  completed : Bool
  last_watched : String
  watch_count : ℕ
deriving DecidableEq

/-- Update in place of the first row whose `video_id` matches:
`current_time`, `duration`, `completed` and `last_watched` are
overwritten; `watch_count` is not part of the tick payload and is left
unchanged. -/
def dbUpdateFirst (rows : List ProgressRow) (videoId : String)
    (currentTime duration : ℚ) (completed : Bool) (now : String) : List ProgressRow :=
  match rows with
  | [] => []
  | p :: ps =>
    if p.video_id == videoId then
      { p with current_time := currentTime, duration := duration,
               completed := completed, last_watched := now } :: ps
    else
      p :: dbUpdateFirst ps videoId currentTime duration completed now

/-- Modelled from the spec: the database-side upsert behind
`videosApi.updateVideoProgress` is absent from src (only the
`video_progress` schema and the TypeScript caller exist).  Per the spec
it updates the single row for the video in place when one exists, and
otherwise inserts a new row; the insert does not supply `watch_count`,
so the schema default `1` applies. -/
def dbUpdateVideoProgress (rows : List ProgressRow) (videoId : String)
    (currentTime duration : ℚ) (completed : Bool) (freshId now : String) : List ProgressRow :=
  if rows.any (fun p => p.video_id == videoId) then
    dbUpdateFirst rows videoId currentTime duration completed now
  else
    rows ++ [{ id := freshId, video_id := videoId, current_time := currentTime,
               duration := duration, completed := completed, last_watched := now,
               watch_count := 1 }]

/-- First `video_progress` row for a video id. -/
def dbLookup (rows : List ProgressRow) (videoId : String) : Option ProgressRow :=
  rows.find? (fun p => p.video_id == videoId)

end Sqlite

namespace Api

/-- When some row matches, `updateFirst` leaves a first matching row
carrying exactly the tick payload. -/
theorem find?_updateFirst (rows : List VideoProgress) (videoId : String)
    (ct dur : ℚ) (c : Bool) (now : String)
    (h : rows.any (fun p => p.video_id == videoId) = true) :
    ∃ r, (updateFirst rows videoId ct dur c now).find? (fun p => p.video_id == videoId) = some r ∧
      r.current_time = ct ∧ r.duration = dur ∧ r.completed = c ∧ r.last_watched = now := by
  induction rows with
  | nil => simp at h
  | cons p ps ih =>
    by_cases hp : (p.video_id == videoId) = true
    · refine ⟨{ p with current_time := ct, duration := dur, completed := c, last_watched := now },
        ?_, rfl, rfl, rfl, rfl⟩
      unfold updateFirst
      rw [if_pos hp]
      exact List.find?_cons_of_pos _ hp
    · have hp' : (p.video_id == videoId) = false := by simpa using hp
      rw [List.any_cons, hp', Bool.false_or] at h
      obtain ⟨r, hr, h1, h2, h3, h4⟩ := ih h
      refine ⟨r, ?_, h1, h2, h3, h4⟩
      unfold updateFirst
      rw [if_neg hp]
      rw [@List.find?_cons_of_neg _ (fun q => q.video_id == videoId) p
        (updateFirst ps videoId ct dur c now) hp]
      exact hr

/-- After an `updateVideoProgress` call, the row `getVideoProgress`
returns for the same video carries exactly the written payload, in both
the update-in-place and the insert branch. -/
theorem lookup_updateVideoProgress (rows : List VideoProgress) (videoId : String)
    (ct dur : ℚ) (c : Bool) (fid now : String) :
    ∃ r, lookupProgress (updateVideoProgress rows videoId ct dur c fid now) videoId = some r ∧
      r.current_time = ct ∧ r.duration = dur ∧ r.completed = c ∧ r.last_watched = now := by
  unfold lookupProgress updateVideoProgress
  by_cases ha : (rows.any (fun p => p.video_id == videoId)) = true
  · rw [if_pos ha]
    exact find?_updateFirst rows videoId ct dur c now ha
  · rw [if_neg ha]
    have ha' : rows.any (fun p => p.video_id == videoId) = false := by simpa using ha
    have hnone : rows.find? (fun p => p.video_id == videoId) = none :=
      List.find?_eq_none.mpr (List.any_eq_false.mp ha')
    refine ⟨{ id := fid, video_id := videoId, current_time := ct, duration := dur,
              completed := c, last_watched := now }, ?_, rfl, rfl, rfl, rfl⟩
    rw [List.find?_append, hnone]
    simp [List.find?_singleton]

/-- C1 (amended): an automatic tick overwrites the persisted `completed`
flag with the 95%-threshold result alone — after the tick the stored
flag equals `current_time ≥ duration * 0.95`, independent of the
previous value; the old flag is not OR-ed in. -/
theorem tick_persists_threshold_completion (rows : List VideoProgress) (videoId : String)
    (status : VideoStatus) (freshId now : String) :
    ∃ r, lookupProgress (progressTick rows videoId status freshId now) videoId = some r ∧
      r.completed = decide (status.current_time ≥ status.duration * (95 / 100)) := by
  obtain ⟨r, h1, _, _, h4, _⟩ :=
    lookup_updateVideoProgress rows videoId status.current_time status.duration
      (decide (status.current_time ≥ status.duration * (95 / 100))) freshId now
  exact ⟨r, h1, h4⟩

/-- C1 counterexample: a video whose stored progress is `completed =
true` receives an automatic tick at `current_time = 100 < 1200 =
duration`; the persisted flag flips back to `false`, so completion is
not monotonic under automatic ticks and does not equal `old OR
threshold`. -/
theorem completed_cleared_by_low_tick_cex :
    (lookupProgress progressCexStore "v1").map (fun r => r.completed) = some true ∧
    (100 : ℚ) < 1200 ∧
    (lookupProgress
        (progressTick progressCexStore "v1"
          { is_playing := true, current_time := 100, duration := 1200, volume := 1 }
          "id2" "t1") "v1").map (fun r => r.completed) = some false := by
  refine ⟨rfl, by norm_num, ?_⟩
  have hlt : ¬ ((100 : ℚ) ≥ 1200 * (95 / 100)) := by norm_num
  simp [progressCexStore, progressTick, updateVideoProgress, updateFirst, lookupProgress, hlt]

/-- C5: on each tick the persisted `completed` flag is set to `true`
whenever the reported `current_time` is at least `duration * 0.95`. -/
theorem tick_completed_at_95_percent (rows : List VideoProgress) (videoId : String)
    (status : VideoStatus) (freshId now : String)
    (h : status.duration * (95 / 100) ≤ status.current_time) :
    ∃ r, lookupProgress (progressTick rows videoId status freshId now) videoId = some r ∧
      r.completed = true := by
  obtain ⟨r, h1, _, _, h4, _⟩ :=
    lookup_updateVideoProgress rows videoId status.current_time status.duration
      (decide (status.current_time ≥ status.duration * (95 / 100))) freshId now
  exact ⟨r, h1, by rw [h4]; exact decide_eq_true h⟩

/-- C5 witness: duration 1200, tick at 1190 — the persisted flag is true. -/
theorem tick_completed_at_95_percent_witness :
    ∃ r, lookupProgress (progressTick [] "1"
        { is_playing := true, current_time := 1190, duration := 1200, volume := 1 }
        "id1" "t1") "1" = some r ∧ r.completed = true :=
  tick_completed_at_95_percent [] "1" _ "id1" "t1" (by norm_num)

/-- C6 (amended): the persisted `current_time` equals the reported value
exactly — the write path applies no clamping, so values outside
`[0, duration]` are stored unchanged. -/
theorem tick_stores_reported_time_exactly (rows : List VideoProgress) (videoId : String)
    (status : VideoStatus) (freshId now : String) :
    ∃ r, lookupProgress (progressTick rows videoId status freshId now) videoId = some r ∧
      r.current_time = status.current_time ∧ r.duration = status.duration := by
  obtain ⟨r, h1, h2, h3, _, _⟩ :=
    lookup_updateVideoProgress rows videoId status.current_time status.duration
      (decide (status.current_time ≥ status.duration * (95 / 100))) freshId now
  exact ⟨r, h1, h2, h3⟩

/-- C6 counterexample: a tick reporting `current_time = 1500` with
`duration = 1200` persists `current_time = 1500 > duration` — no clamp
to `[0, duration]` happens. -/
theorem tick_stores_unclamped_time_cex :
    (lookupProgress
        (progressTick [] "v1"
          { is_playing := true, current_time := 1500, duration := 1200, volume := 1 }
          "id1" "t1") "v1").map (fun r => r.current_time) = some 1500 ∧
    (lookupProgress
        (progressTick [] "v1"
          { is_playing := true, current_time := 1500, duration := 1200, volume := 1 }
          "id1" "t1") "v1").map (fun r => decide (r.current_time ≤ r.duration)) = some false := by
  have hgt : ¬ ((1500 : ℚ) ≤ 1200) := by norm_num
  constructor
  · simp [progressTick, updateVideoProgress, updateFirst, lookupProgress]
  · simp [progressTick, updateVideoProgress, updateFirst, lookupProgress, hgt]

/-- `updateFirst` rewrites fields of one row but never its `video_id`,
so per-video row counts are unchanged. -/
theorem countP_updateFirst (rows : List VideoProgress) (videoId v : String)
    (ct dur : ℚ) (c : Bool) (now : String) :
    (updateFirst rows videoId ct dur c now).countP (fun p => p.video_id == v)
      = rows.countP (fun p => p.video_id == v) := by
  induction rows with
  | nil => rfl
  | cons p ps ih =>
    unfold updateFirst
    by_cases hp : (p.video_id == videoId) = true
    · rw [if_pos hp]
      simp [List.countP_cons]
    · rw [if_neg hp]
      simp [List.countP_cons, ih]

/-- One `updateVideoProgress` call preserves the at-most-one-row-per-video
invariant: the update branch keeps all counts, and the insert branch
only fires when the count for that video is zero. -/
theorem atMostOne_updateVideoProgress (rows : List VideoProgress) (videoId : String)
    (ct dur : ℚ) (c : Bool) (fid now : String) (h : atMostOnePerVideo rows) :
    atMostOnePerVideo (updateVideoProgress rows videoId ct dur c fid now) := by
  intro v
  unfold updateVideoProgress
  by_cases ha : (rows.any (fun p => p.video_id == videoId)) = true
  · rw [if_pos ha, countP_updateFirst]
    exact h v
  · rw [if_neg ha]
    have ha' : rows.any (fun p => p.video_id == videoId) = false := by simpa using ha
    rw [List.countP_append]
    by_cases hv : (videoId == v) = true
    · have h0 : rows.countP (fun p => p.video_id == v) = 0 := by
        apply List.countP_eq_zero.mpr
        intro p hp hpv
        have hveq : videoId = v := by simpa using hv
        have hpid : p.video_id = videoId := by
          have : p.video_id = v := by simpa using hpv
          rw [this, hveq]
        exact (List.any_eq_false.mp ha') p hp (by simp [hpid])
      rw [h0]
      simp [List.countP_cons, hv]
    · have hv' : (videoId == v) = false := by simpa using hv
      have h1 : List.countP (fun p : VideoProgress => p.video_id == v)
          [{ id := fid, video_id := videoId, current_time := ct, duration := dur,
             completed := c, last_watched := now }] = 0 := by
        simp [List.countP_cons, hv']
      rw [h1]
      simpa using h v

/-- C2: starting from a store with at most one progress row per video,
any sequence of `updateVideoProgress` calls keeps at most one
`VideoProgress` row per video id — the write path updates in place when
a row exists and inserts only when none does. -/
theorem updateVideoProgress_at_most_one_row (calls : List TickCall) (rows : List VideoProgress)
    (h : atMostOnePerVideo rows) : atMostOnePerVideo (applyCalls rows calls) := by
  induction calls generalizing rows with
  | nil => exact h
  | cons cl cls ih =>
    exact ih _ (atMostOne_updateVideoProgress rows cl.videoId cl.currentTime cl.duration
      cl.completed cl.freshId cl.now h)

/-- C2 witness: the initial mock store (rows for videos 1 and 3) stays
at one row per video after an in-place tick for video 1 and an
inserting tick for the previously absent video 7. -/
theorem updateVideoProgress_at_most_one_row_witness :
    atMostOnePerVideo (applyCalls mockVideoProgress
      [{ videoId := "1", currentTime := 700, duration := 1200, completed := false,
         freshId := "x1", now := "t1" },
       { videoId := "7", currentTime := 5, duration := 60, completed := false,
         freshId := "x2", now := "t2" }]) := by
  apply updateVideoProgress_at_most_one_row
  intro v
  by_cases h1 : v = "1"
  · subst h1; decide
  · by_cases h3 : v = "3"
    · subst h3; decide
    · have e1 : ("1" == v) = false := by simp; exact fun h => h1 h.symm
      have e3 : ("3" == v) = false := by simp; exact fun h => h3 h.symm
      simp [mockVideoProgress, List.countP_cons, e1, e3]

/-- C9: no course-API operation ever rejects — each resolves on backend
success with the backend value, and on backend failure with the mock
fallback (`mockCourses`, the filtered `mockModules`, or a silent mock
mutation for `updateCourseLastAccessed`). -/
theorem coursesApi_never_rejects :
    (∀ b : Except String (List Course), (scanCourses b).isOk = true) ∧
    (∀ e : String, scanCourses (.error e) = .ok mockCourses) ∧
    (∀ b : Except String (List Course), (getAllCourses b).isOk = true) ∧
    (∀ e : String, getAllCourses (.error e) = .ok mockCourses) ∧
    (∀ (b : Except String (List Module)) (cid : String), (getCourseModules b cid).isOk = true) ∧
    (∀ (e cid : String), getCourseModules (.error e) cid
        = .ok (mockModules.filter (fun m => m.course_id == cid))) ∧
    (∀ (b : Except String Unit) (store : List Course) (cid now : String),
        ((updateCourseLastAccessed b store cid now).1).isOk = true) ∧
    (∀ (b : Except String (List Course)) (dir : String), (scanCustomDirectory b dir).isOk = true) ∧
    (∀ (e dir : String), scanCustomDirectory (.error e) dir = .ok mockCourses) := by
  refine ⟨fun b => ?_, fun e => rfl, fun b => ?_, fun e => rfl, fun b cid => ?_,
    fun e cid => rfl, fun b store cid now => ?_, fun b dir => ?_, fun e dir => rfl⟩ <;>
    cases b <;> rfl

/-- C10: `utils.getProgressPercentage` is total and guarded against
division by zero — it returns `0` when `duration = 0` and
`Math.round((current_time / duration) * 100)` otherwise. -/
theorem getProgressPercentage_total_guarded (p : VideoProgress) :
    (p.duration = 0 → getProgressPercentage p = 0) ∧
    (p.duration ≠ 0 → getProgressPercentage p = jsRound (p.current_time / p.duration * 100)) := by
  constructor
  · intro h
    simp [getProgressPercentage, h]
  · intro h
    simp [getProgressPercentage, h]

/-- C10 witness: a zero-duration progress yields 0, and a half-watched
1200s video yields the rounded percentage. -/
theorem getProgressPercentage_total_guarded_witness :
    getProgressPercentage { id := "z", video_id := "z", current_time := 10, duration := 0,
                            completed := false, last_watched := "t" } = 0 ∧
    getProgressPercentage { id := "h", video_id := "h", current_time := 600, duration := 1200,
                            completed := false, last_watched := "t" }
      = jsRound (600 / 1200 * 100) :=
  ⟨(getProgressPercentage_total_guarded _).1 rfl,
   (getProgressPercentage_total_guarded _).2 (by norm_num)⟩

end Api

namespace Sql

/-- Conflicts survive appending a row. -/
theorem settingConflict_append (rows : List UserSetting) (x r : UserSetting)
    (h : settingConflict rows r = true) : settingConflict (rows ++ [x]) r = true := by
  unfold settingConflict at h ⊢
  rw [List.any_append]
  simp [h]

/-- Conflicts survive any later `INSERT OR IGNORE`. -/
theorem settingConflict_insertOrIgnore (rows : List UserSetting) (x r : UserSetting)
    (h : settingConflict rows r = true) :
    settingConflict (insertOrIgnoreSetting rows x) r = true := by
  unfold insertOrIgnoreSetting
  by_cases hc : settingConflict rows x = true
  · rw [if_pos hc]; exact h
  · rw [if_neg hc]; exact settingConflict_append rows x r h

/-- After `INSERT OR IGNORE` of a row, that row conflicts with the
store (either it already conflicted, or it is now present itself). -/
theorem settingConflict_self_after (rows : List UserSetting) (r : UserSetting) :
    settingConflict (insertOrIgnoreSetting rows r) r = true := by
  unfold insertOrIgnoreSetting
  by_cases hc : settingConflict rows r = true
  · rw [if_pos hc]; exact hc
  · rw [if_neg hc]
    unfold settingConflict
    rw [List.any_append]
    simp

/-- Conflicts survive a whole `INSERT OR IGNORE` batch. -/
theorem settingConflict_foldl (rows : List UserSetting) (rs : List UserSetting) (r : UserSetting)
    (h : settingConflict rows r = true) :
    settingConflict (rs.foldl insertOrIgnoreSetting rows) r = true := by
  induction rs generalizing rows with
  | nil => exact h
  | cons a as ih => exact ih _ (settingConflict_insertOrIgnore rows a r h)

/-- Every row of an `INSERT OR IGNORE` batch conflicts with the store
once the batch has run. -/
theorem settingConflict_mem_foldl (rows : List UserSetting) (rs : List UserSetting)
    (r : UserSetting) (h : r ∈ rs) :
    settingConflict (rs.foldl insertOrIgnoreSetting rows) r = true := by
  induction rs generalizing rows with
  | nil => simp at h
  | cons a as ih =>
    rw [List.foldl_cons]
    rcases List.mem_cons.mp h with rfl | hmem
    · exact settingConflict_foldl _ as r (settingConflict_self_after rows r)
    · exact ih _ hmem

/-- An `INSERT OR IGNORE` batch whose rows all conflict is the identity. -/
theorem foldl_insertOrIgnore_of_conflicts (rows : List UserSetting) (rs : List UserSetting)
    (h : ∀ r ∈ rs, settingConflict rows r = true) :
    rs.foldl insertOrIgnoreSetting rows = rows := by
  induction rs with
  | nil => rfl
  | cons a as ih =>
    rw [List.foldl_cons]
    have ha : insertOrIgnoreSetting rows a = rows := by
      unfold insertOrIgnoreSetting
      rw [if_pos (h a (by simp))]
    rw [ha]
    exact ih (fun r hr => h r (by simp [hr]))

/-- An `INSERT OR IGNORE` batch only appends rows. -/
theorem foldl_insertOrIgnore_append (rows : List UserSetting) (rs : List UserSetting) :
    ∃ t, rs.foldl insertOrIgnoreSetting rows = rows ++ t := by
  induction rs generalizing rows with
  | nil => exact ⟨[], by simp⟩
  | cons a as ih =>
    rw [List.foldl_cons]
    by_cases hc : settingConflict rows a = true
    · have ha : insertOrIgnoreSetting rows a = rows := by
        unfold insertOrIgnoreSetting
        rw [if_pos hc]
      rw [ha]
      exact ih rows
    · have ha : insertOrIgnoreSetting rows a = rows ++ [a] := by
        unfold insertOrIgnoreSetting
        rw [if_neg hc]
      rw [ha]
      obtain ⟨t, ht⟩ := ih (rows ++ [a])
      exact ⟨[a] ++ t, by rw [ht, List.append_assoc]⟩

/-- A conflict check only reads the candidate's `id` and `setting_key`. -/
theorem settingConflict_congr (rows : List UserSetting) (r r2 : UserSetting)
    (hid : r.id = r2.id) (hkey : r.setting_key = r2.setting_key) :
    settingConflict rows r = settingConflict rows r2 := by
  unfold settingConflict
  rw [hid, hkey]

/-- Seeding the defaults a second time (at any later timestamp) is the
identity: every default's `id` and `setting_key` already conflict. -/
theorem insertDefaultSettings_idem (s : List UserSetting) (t1 t2 : String) :
    insertDefaultSettings (insertDefaultSettings s t1) t2 = insertDefaultSettings s t1 := by
  apply foldl_insertOrIgnore_of_conflicts
  intro r hr
  have base : ∀ r1 : UserSetting, r1 ∈ defaultSettings t1 →
      r.id = r1.id → r.setting_key = r1.setting_key →
      settingConflict (insertDefaultSettings s t1) r = true := by
    intro r1 h1 hid hkey
    rw [settingConflict_congr _ r r1 hid hkey]
    exact settingConflict_mem_foldl s (defaultSettings t1) r1 h1
  simp only [defaultSettings, List.mem_cons, List.not_mem_nil, or_false] at hr
  rcases hr with rfl | rfl | rfl | rfl | rfl | rfl | rfl
  · exact base ⟨"setting_theme", "theme", "dark", "string", t1⟩ (by simp [defaultSettings]) rfl rfl
  · exact base ⟨"setting_auto_play", "auto_play_next", "true", "boolean", t1⟩ (by simp [defaultSettings]) rfl rfl
  · exact base ⟨"setting_speed", "playback_speed", "1.0", "number", t1⟩ (by simp [defaultSettings]) rfl rfl
  · exact base ⟨"setting_volume", "volume", "0.8", "number", t1⟩ (by simp [defaultSettings]) rfl rfl
  · exact base ⟨"setting_auto_save", "auto_save_progress", "true", "boolean", t1⟩ (by simp [defaultSettings]) rfl rfl
  · exact base ⟨"setting_subtitles", "show_subtitles", "false", "boolean", t1⟩ (by simp [defaultSettings]) rfl rfl
  · exact base ⟨"setting_language", "language", "pt-BR", "string", t1⟩ (by simp [defaultSettings]) rfl rfl

/-- The name-set insert of `CREATE ... IF NOT EXISTS` leaves a present
name present. -/
theorem createIfAbsent_keeps (names : List String) (m n : String)
    (h : names.any (fun x => x == n) = true) :
    (createIfAbsent names m).any (fun x => x == n) = true := by
  unfold createIfAbsent
  by_cases hc : (names.any (fun x => x == m)) = true
  · rw [if_pos hc]; exact h
  · rw [if_neg hc]
    rw [List.any_append]
    simp [h]

/-- After `CREATE ... IF NOT EXISTS` the created name is present. -/
theorem createIfAbsent_self (names : List String) (n : String) :
    (createIfAbsent names n).any (fun x => x == n) = true := by
  unfold createIfAbsent
  by_cases hc : (names.any (fun x => x == n)) = true
  · rw [if_pos hc]; exact hc
  · rw [if_neg hc]
    rw [List.any_append]
    simp

/-- Present names survive a whole `CREATE ... IF NOT EXISTS` batch. -/
theorem createIfAbsent_foldl_keeps (names : List String) (rs : List String) (n : String)
    (h : names.any (fun x => x == n) = true) :
    (rs.foldl createIfAbsent names).any (fun x => x == n) = true := by
  induction rs generalizing names with
  | nil => exact h
  | cons a as ih => exact ih _ (createIfAbsent_keeps names a n h)

/-- Every name of a `CREATE ... IF NOT EXISTS` batch is present after
the batch. -/
theorem createIfAbsent_mem_foldl (names : List String) (rs : List String) (n : String)
    (h : n ∈ rs) : (rs.foldl createIfAbsent names).any (fun x => x == n) = true := by
  induction rs generalizing names with
  | nil => simp at h
  | cons a as ih =>
    rw [List.foldl_cons]
    rcases List.mem_cons.mp h with rfl | hmem
    · exact createIfAbsent_foldl_keeps _ as n (createIfAbsent_self names n)
    · exact ih _ hmem

/-- A `CREATE ... IF NOT EXISTS` batch whose names are all present is
the identity. -/
theorem createIfAbsent_foldl_of_present (names : List String) (rs : List String)
    (h : ∀ n ∈ rs, names.any (fun x => x == n) = true) :
    rs.foldl createIfAbsent names = names := by
  induction rs with
  | nil => rfl
  | cons a as ih =>
    rw [List.foldl_cons]
    have ha : createIfAbsent names a = names := by
      unfold createIfAbsent
      rw [if_pos (h a (by simp))]
    rw [ha]
    exact ih (fun n hn => h n (by simp [hn]))

/-- Re-running `createTablesSQL` is the identity. -/
theorem runCreateTables_idem (names : List String) :
    runCreateTables (runCreateTables names) = runCreateTables names := by
  apply createIfAbsent_foldl_of_present
  intro n hn
  exact createIfAbsent_mem_foldl names allTableNames n hn

/-- Re-running `createIndexesSQL` is the identity. -/
theorem runCreateIndexes_idem (names : List String) :
    runCreateIndexes (runCreateIndexes names) = runCreateIndexes names := by
  apply createIfAbsent_foldl_of_present
  intro n hn
  exact createIfAbsent_mem_foldl names allIndexNames n hn

/-- Filtering by a predicate that every match of `find?` satisfies does
not change the result of `find?`. -/
theorem find?_filter_of_imp {α : Type} {p q : α → Bool} (l : List α)
    (h : ∀ x, p x = true → q x = true) : (l.filter q).find? p = l.find? p := by
  induction l with
  | nil => rfl
  | cons a as ih =>
    rw [List.filter_cons]
    by_cases hp : p a = true
    · rw [if_pos (h a hp), List.find?_cons_of_pos _ hp, List.find?_cons_of_pos _ hp]
    · by_cases hq : q a = true
      · rw [if_pos hq, List.find?_cons_of_neg _ hp, List.find?_cons_of_neg _ hp]
        exact ih
      · rw [if_neg hq, List.find?_cons_of_neg _ hp]
        exact ih

/-- `INSERT OR REPLACE` makes its own row the result of a lookup by its
key. -/
theorem find?_insertOrReplaceMeta_self (m : List MetaRow) (r : MetaRow) :
    (insertOrReplaceMeta m r).find? (fun x => x.key == r.key) = some r := by
  unfold insertOrReplaceMeta
  rw [List.find?_append]
  have hnone : (m.filter (fun x => !(x.key == r.key))).find? (fun x => x.key == r.key) = none := by
    apply List.find?_eq_none.mpr
    intro x hx
    have h2 := (List.mem_filter.mp hx).2
    simp at h2
    simp [h2]
  rw [hnone]
  simp [List.find?_singleton]

/-- `INSERT OR REPLACE` does not change lookups by a different key. -/
theorem find?_insertOrReplaceMeta_ne (m : List MetaRow) (r : MetaRow) (k : String)
    (h : (k == r.key) = false) :
    (insertOrReplaceMeta m r).find? (fun x => x.key == k) = m.find? (fun x => x.key == k) := by
  unfold insertOrReplaceMeta
  rw [List.find?_append]
  have h1 : (m.filter (fun x => !(x.key == r.key))).find? (fun x => x.key == k)
      = m.find? (fun x => x.key == k) := by
    apply find?_filter_of_imp
    intro x hx
    have hxk : x.key = k := by simpa using hx
    have hne : k ≠ r.key := beq_eq_false_iff_ne.mp h
    simp [hxk, hne]
  rw [h1]
  have h2 : List.find? (fun x => x.key == k) [r] = none := by
    have : r.key ≠ k := fun he => (beq_eq_false_iff_ne.mp h) he.symm
    simp [List.find?_singleton, this]
  rw [h2, Option.or_none]

/-- After any run of `Initialize-Database` the stored version is "2". -/
theorem metaValue_version (s : SqlStore) (now : String) :
    metaValue (initDatabase s now) "version" = some "2" := by
  unfold metaValue initDatabase setDatabaseVersion
  rw [find?_insertOrReplaceMeta_ne _ ⟨"last_migration", now, now⟩ "version"
      ((by decide : ("version" == "last_migration") = false)),
    find?_insertOrReplaceMeta_ne _ ⟨"created_at", now, now⟩ "version"
      ((by decide : ("version" == "created_at") = false))]
  have h := find?_insertOrReplaceMeta_self s.database_metadata
    { key := "version", value := "2", updated_at := now }
  rw [h]
  rfl

/-- After any run of `Initialize-Database`, `last_migration` holds that
run's timestamp. -/
theorem metaValue_last_migration (s : SqlStore) (now : String) :
    metaValue (initDatabase s now) "last_migration" = some now := by
  unfold metaValue initDatabase setDatabaseVersion
  have h := find?_insertOrReplaceMeta_self
    (insertOrReplaceMeta
      (insertOrReplaceMeta s.database_metadata { key := "version", value := "2", updated_at := now })
      { key := "created_at", value := now, updated_at := now })
    { key := "last_migration", value := now, updated_at := now }
  rw [h]
  rfl

/-- C3 (amended): running `Initialize-Database` a second time leaves the
schema (tables and indexes), the pre-existing data rows and the
`user_settings` rows unchanged, but rewrites the `database_metadata`
rows via `INSERT OR REPLACE`: `version` stays "2" while `created_at`
and `last_migration` take the second run's `datetime('now')`, so the
metadata — `last_migration` in particular — is not preserved. -/
theorem initDatabase_second_run (s : SqlStore) (t1 t2 : String) :
    (initDatabase (initDatabase s t1) t2).tableNames = (initDatabase s t1).tableNames ∧
    (initDatabase (initDatabase s t1) t2).indexNames = (initDatabase s t1).indexNames ∧
    (initDatabase (initDatabase s t1) t2).dataRows = (initDatabase s t1).dataRows ∧
    (initDatabase (initDatabase s t1) t2).user_settings = (initDatabase s t1).user_settings ∧
    metaValue (initDatabase (initDatabase s t1) t2) "version" = some "2" ∧
    metaValue (initDatabase (initDatabase s t1) t2) "last_migration" = some t2 := by
  refine ⟨?_, ?_, ?_, ?_, metaValue_version _ t2, metaValue_last_migration _ t2⟩
  · simp only [initDatabase]
    exact runCreateTables_idem s.tableNames
  · simp only [initDatabase]
    exact runCreateIndexes_idem s.indexNames
  · simp only [initDatabase]
  · simp only [initDatabase]
    exact insertDefaultSettings_idem s.user_settings t1 t2

/-- C3 counterexample: against a store already initialized (version 2)
at time `2024-01-01`, a second `Initialize-Database` run at
`2024-01-02` rewrites `last_migration` from the first timestamp to the
second — the SchemaMetadata values are not unchanged. -/
theorem initDatabase_rewrites_last_migration_cex :
    metaValue (initDatabase emptyStore "2024-01-01T00:00:00Z") "last_migration"
        = some "2024-01-01T00:00:00Z" ∧
    metaValue (initDatabase (initDatabase emptyStore "2024-01-01T00:00:00Z")
        "2024-01-02T00:00:00Z") "last_migration" = some "2024-01-02T00:00:00Z" ∧
    ("2024-01-01T00:00:00Z" : String) ≠ "2024-01-02T00:00:00Z" := by
  refine ⟨metaValue_last_migration emptyStore "2024-01-01T00:00:00Z",
    metaValue_last_migration (initDatabase emptyStore "2024-01-01T00:00:00Z")
      "2024-01-02T00:00:00Z", by decide⟩

/-- C8: `Initialize-Database` seeds exactly the seven fixed defaults on
an empty settings table, and `INSERT OR IGNORE` never touches a row
whose `setting_key` is already present — a user-changed setting
survives a re-run unchanged. -/
theorem insertDefaultSettings_seeds_and_preserves :
    (∀ now : String, insertDefaultSettings [] now = defaultSettings now) ∧
    (∀ (s : List UserSetting) (now key : String) (r : UserSetting),
      s.find? (fun x => x.setting_key == key) = some r →
      (insertDefaultSettings s now).find? (fun x => x.setting_key == key) = some r) := by
  constructor
  · intro now
    rfl
  · intro s now key r h
    obtain ⟨t, ht⟩ := foldl_insertOrIgnore_append s (defaultSettings now)
    unfold insertDefaultSettings
    rw [ht, List.find?_append, h]
    rfl

/-- C8 witness: a fresh store receives the seven defaults, and a theme
the user changed to "light" between two runs stays "light". -/
theorem insertDefaultSettings_seeds_and_preserves_witness :
    insertDefaultSettings [] "t0" = defaultSettings "t0" ∧
    (insertDefaultSettings
        [{ id := "setting_theme", setting_key := "theme", setting_value := "light",
           setting_type := "string", updated_at := "t1" }] "t2").find?
        (fun x => x.setting_key == "theme")
      = some { id := "setting_theme", setting_key := "theme", setting_value := "light",
               setting_type := "string", updated_at := "t1" } :=
  ⟨insertDefaultSettings_seeds_and_preserves.1 "t0",
   insertDefaultSettings_seeds_and_preserves.2 _ "t2" "theme" _ rfl⟩

end Sql

namespace Sqlite

/-- An in-place tick update never touches any row's `watch_count`. -/
theorem map_watch_count_dbUpdateFirst (rows : List ProgressRow) (videoId : String)
    (ct dur : ℚ) (c : Bool) (now : String) :
    (dbUpdateFirst rows videoId ct dur c now).map (fun r => r.watch_count)
      = rows.map (fun r => r.watch_count) := by
  induction rows with
  | nil => rfl
  | cons p ps ih =>
    unfold dbUpdateFirst
    by_cases hp : (p.video_id == videoId) = true
    · rw [if_pos hp]
      simp
    · rw [if_neg hp]
      simp [ih]

/-- C7: the progress write path maintains `watch_count` — a first write
for a video inserts a row whose `watch_count` is the schema default 1,
and an ordinary position tick on an existing row never changes any
`watch_count`. -/
theorem dbUpdateVideoProgress_watch_count (rows : List ProgressRow) (videoId : String)
    (ct dur : ℚ) (c : Bool) (fid now : String) :
    ((rows.any (fun p => p.video_id == videoId)) = false →
      (dbLookup (dbUpdateVideoProgress rows videoId ct dur c fid now) videoId).map
          (fun r => r.watch_count) = some 1) ∧
    ((rows.any (fun p => p.video_id == videoId)) = true →
      (dbUpdateVideoProgress rows videoId ct dur c fid now).map (fun r => r.watch_count)
        = rows.map (fun r => r.watch_count)) := by
  constructor
  · intro h
    unfold dbUpdateVideoProgress
    rw [if_neg (by simp [h])]
    unfold dbLookup
    rw [List.find?_append, List.find?_eq_none.mpr (List.any_eq_false.mp h)]
    simp [List.find?_singleton]
  · intro h
    unfold dbUpdateVideoProgress
    rw [if_pos h]
    exact map_watch_count_dbUpdateFirst rows videoId ct dur c now

/-- C7 witness: inserting for an absent video yields `watch_count = 1`;
a tick on an existing row with `watch_count = 3` leaves it at 3. -/
theorem dbUpdateVideoProgress_watch_count_witness :
    (dbLookup (dbUpdateVideoProgress [] "v1" 10 100 false "id1" "t1") "v1").map
        (fun r => r.watch_count) = some 1 ∧
    (dbUpdateVideoProgress
        [{ id := "p1", video_id := "v1", current_time := 5, duration := 100,
           completed := false, last_watched := "t0", watch_count := 3 }]
        "v1" 10 100 false "id2" "t1").map (fun r => r.watch_count) = [3] := by
  constructor
  · exact (dbUpdateVideoProgress_watch_count [] "v1" 10 100 false "id1" "t1").1 rfl
  · rw [(dbUpdateVideoProgress_watch_count
      [{ id := "p1", video_id := "v1", current_time := 5, duration := 100,
         completed := false, last_watched := "t0", watch_count := 3 }]
      "v1" 10 100 false "id2" "t1").2 rfl]
    rfl

end Sqlite

namespace Schema

/-- A surviving video's direct course reference is not the deleted
course. -/
theorem course_ne_of_video_kept (db : Db) (cid : String) (v : VideoRow)
    (h : videoDeleted db cid v = false) : v.course_id ≠ cid := by
  unfold videoDeleted at h
  exact beq_eq_false_iff_ne.mp (Bool.or_eq_false_iff.mp h).1

/-- A surviving video's owning module was not cascade-deleted. -/
theorem moduleDeleted_false_of_video_kept (db : Db) (cid : String) (v : VideoRow)
    (h : videoDeleted db cid v = false) :
    ∀ m ∈ db.modules, m.id = v.module_id → moduleDeleted cid m = false := by
  intro m hm hid
  unfold videoDeleted at h
  have h3 := List.any_eq_false.mp (Bool.or_eq_false_iff.mp h).2 m hm
  cases hd : moduleDeleted cid m with
  | false => rfl
  | true => exact absurd (by simp [hd, hid]) h3

/-- If no video matching a target id was cascade-deleted, then each
video carrying that id was kept. -/
theorem videoDeleted_false_of_kept_ref (db : Db) (cid : String) (tid : String)
    (h : db.videos.any (fun v => videoDeleted db cid v && v.id == tid) = false) :
    ∀ v ∈ db.videos, v.id = tid → videoDeleted db cid v = false := by
  intro v hv hid
  have h3 := List.any_eq_false.mp h v hv
  cases hd : videoDeleted db cid v with
  | false => rfl
  | true => exact absurd (by simp [hd, hid]) h3

/-- A kept note's module reference, when present, points at a module
that was not cascade-deleted. -/
theorem moduleDeleted_false_of_kept_note_ref (db : Db) (cid : String) (n : NoteRow)
    (h : db.modules.any (fun m => moduleDeleted cid m && n.module_id == some m.id) = false) :
    ∀ m ∈ db.modules, n.module_id = some m.id → moduleDeleted cid m = false := by
  intro m hm hid
  have h3 := List.any_eq_false.mp h m hm
  cases hd : moduleDeleted cid m with
  | false => rfl
  | true => exact absurd (by simp [hd, hid]) h3

/-- A kept note's video reference, when present, points at a video that
was not cascade-deleted. -/
theorem videoDeleted_false_of_kept_note_ref (db : Db) (cid : String) (n : NoteRow)
    (h : db.videos.any (fun v => videoDeleted db cid v && n.video_id == some v.id) = false) :
    ∀ v ∈ db.videos, n.video_id = some v.id → videoDeleted db cid v = false := by
  intro v hv hid
  have h3 := List.any_eq_false.mp h v hv
  cases hd : videoDeleted db cid v with
  | false => rfl
  | true => exact absurd (by simp [hd, hid]) h3

/-- A course other than the deleted one survives. -/
theorem mem_courses_after (db : Db) (cid : String) (c : CourseRow)
    (hc : c ∈ db.courses) (hne : c.id ≠ cid) : c ∈ (deleteCourse db cid).courses := by
  simp only [deleteCourse]
  exact List.mem_filter.mpr ⟨hc, by simp [hne]⟩

/-- A module that was not cascade-deleted survives. -/
theorem mem_modules_after (db : Db) (cid : String) (m : ModuleRow)
    (hm : m ∈ db.modules) (hd : moduleDeleted cid m = false) :
    m ∈ (deleteCourse db cid).modules := by
  simp only [deleteCourse]
  exact List.mem_filter.mpr ⟨hm, by simp [hd]⟩

/-- A video that was not cascade-deleted survives. -/
theorem mem_videos_after (db : Db) (cid : String) (v : VideoRow)
    (hv : v ∈ db.videos) (hd : videoDeleted db cid v = false) :
    v ∈ (deleteCourse db cid).videos := by
  simp only [deleteCourse]
  exact List.mem_filter.mpr ⟨hv, by simp [hd]⟩

/-- C4: with the declared `ON DELETE CASCADE` foreign keys of
`createTablesSQL`, deleting a course removes every module, video,
progress row, note and bookmark transitively reachable from it, leaves
no surviving row dangling (given the store satisfied referential
integrity beforehand), and leaves the foreign-key-free `activity_log`
untouched. -/
theorem deleteCourse_cascades_no_orphans (db : Db) (cid : String)
    (h : refIntegrity db = true) : cascadeSpec db cid := by
  unfold refIntegrity at h
  simp only [Bool.and_eq_true] at h
  obtain ⟨⟨⟨⟨hm, hv⟩, hp⟩, hb⟩, hn⟩ := h
  refine ⟨?_, ?_, ?_, ?_, ?_, ?_, ?_, ?_, ?_, ?_, ?_, rfl⟩
  · intro c hc
    simp only [deleteCourse] at hc
    simpa using (List.mem_filter.mp hc).2
  · intro m hmem
    simp only [deleteCourse] at hmem
    have h2 := (List.mem_filter.mp hmem).2
    simpa [moduleDeleted] using h2
  · intro v hv2
    simp only [deleteCourse] at hv2
    simpa using (List.mem_filter.mp hv2).2
  · intro p hp2 v hv2 hid
    simp only [deleteCourse] at hp2
    have h3 : progressDeleted db cid p = false := by
      simpa using (List.mem_filter.mp hp2).2
    unfold progressDeleted at h3
    exact videoDeleted_false_of_kept_ref db cid p.video_id h3 v hv2 hid
  · intro b hb2 v hv2 hid
    simp only [deleteCourse] at hb2
    have h3 : bookmarkDeleted db cid b = false := by
      simpa using (List.mem_filter.mp hb2).2
    unfold bookmarkDeleted at h3
    exact videoDeleted_false_of_kept_ref db cid b.video_id h3 v hv2 hid
  · intro n hn2
    simp only [deleteCourse] at hn2
    have h3 : noteDeleted db cid n = false := by
      simpa using (List.mem_filter.mp hn2).2
    unfold noteDeleted at h3
    obtain ⟨h45, h6⟩ := Bool.or_eq_false_iff.mp h3
    obtain ⟨h4, h5⟩ := Bool.or_eq_false_iff.mp h45
    refine ⟨beq_eq_false_iff_ne.mp h4, ?_, ?_⟩
    · intro m hmem hid
      have hd := moduleDeleted_false_of_kept_note_ref db cid n h5 m hmem hid
      simpa [moduleDeleted] using hd
    · intro v hv2 hid
      exact videoDeleted_false_of_kept_note_ref db cid n h6 v hv2 hid
  · intro m hmem
    simp only [deleteCourse] at hmem
    obtain ⟨hm0, hmkeep⟩ := List.mem_filter.mp hmem
    have hne : m.course_id ≠ cid := by simpa [moduleDeleted] using hmkeep
    obtain ⟨c, hc0, hcb⟩ := List.any_eq_true.mp (List.all_eq_true.mp hm m hm0)
    have hceq : c.id = m.course_id := by simpa using hcb
    exact ⟨c, mem_courses_after db cid c hc0 (by rw [hceq]; exact hne), hceq⟩
  · intro v hv2
    simp only [deleteCourse] at hv2
    obtain ⟨hv0, hvkeep⟩ := List.mem_filter.mp hv2
    have hvdel : videoDeleted db cid v = false := by simpa using hvkeep
    have hint := List.all_eq_true.mp hv v hv0
    rw [Bool.and_eq_true] at hint
    obtain ⟨hvm, hvc⟩ := hint
    constructor
    · obtain ⟨m, hm0, hmb⟩ := List.any_eq_true.mp hvm
      have hmeq : m.id = v.module_id := by simpa using hmb
      have hd := moduleDeleted_false_of_video_kept db cid v hvdel m hm0 hmeq
      exact ⟨m, mem_modules_after db cid m hm0 hd, hmeq⟩
    · obtain ⟨c, hc0, hcb⟩ := List.any_eq_true.mp hvc
      have hceq : c.id = v.course_id := by simpa using hcb
      have hne := course_ne_of_video_kept db cid v hvdel
      exact ⟨c, mem_courses_after db cid c hc0 (by rw [hceq]; exact hne), hceq⟩
  · intro p hp2
    simp only [deleteCourse] at hp2
    obtain ⟨hp0, hpkeep⟩ := List.mem_filter.mp hp2
    have h3 : progressDeleted db cid p = false := by simpa using hpkeep
    unfold progressDeleted at h3
    obtain ⟨v, hv0, hvb⟩ := List.any_eq_true.mp (List.all_eq_true.mp hp p hp0)
    have hveq : v.id = p.video_id := by simpa using hvb
    have hd := videoDeleted_false_of_kept_ref db cid p.video_id h3 v hv0 hveq
    exact ⟨v, mem_videos_after db cid v hv0 hd, hveq⟩
  · intro b hb2
    simp only [deleteCourse] at hb2
    obtain ⟨hb0, hbkeep⟩ := List.mem_filter.mp hb2
    have h3 : bookmarkDeleted db cid b = false := by simpa using hbkeep
    unfold bookmarkDeleted at h3
    obtain ⟨v, hv0, hvb⟩ := List.any_eq_true.mp (List.all_eq_true.mp hb b hb0)
    have hveq : v.id = b.video_id := by simpa using hvb
    have hd := videoDeleted_false_of_kept_ref db cid b.video_id h3 v hv0 hveq
    exact ⟨v, mem_videos_after db cid v hv0 hd, hveq⟩
  · intro n hn2
    simp only [deleteCourse] at hn2
    obtain ⟨hn0, hnkeep⟩ := List.mem_filter.mp hn2
    have h3 : noteDeleted db cid n = false := by simpa using hnkeep
    unfold noteDeleted at h3
    obtain ⟨h45, h6⟩ := Bool.or_eq_false_iff.mp h3
    obtain ⟨h4, h5⟩ := Bool.or_eq_false_iff.mp h45
    have hint := List.all_eq_true.mp hn n hn0
    rw [Bool.and_eq_true, Bool.and_eq_true] at hint
    obtain ⟨⟨hnc, hnm⟩, hnv⟩ := hint
    refine ⟨?_, ?_, ?_⟩
    · cases hcase : n.course_id with
      | none => simp [optionalRefOk]
      | some x =>
        rw [hcase] at hnc h4
        obtain ⟨c, hc0, hcb⟩ := List.any_eq_true.mp hnc
        have hceq : c.id = x := by simpa using hcb
        have hxne : x ≠ cid := by
          intro he
          rw [he] at h4
          simp at h4
        simp only [optionalRefOk]
        apply List.any_eq_true.mpr
        exact ⟨c, mem_courses_after db cid c hc0 (by rw [hceq]; exact hxne), by simp [hceq]⟩
    · cases hcase : n.module_id with
      | none => simp [optionalRefOk]
      | some x =>
        rw [hcase] at hnm
        obtain ⟨m, hm0, hmb⟩ := List.any_eq_true.mp hnm
        have hmeq : m.id = x := by simpa using hmb
        have hd := moduleDeleted_false_of_kept_note_ref db cid n h5 m hm0
          (by rw [hcase, hmeq])
        simp only [optionalRefOk]
        apply List.any_eq_true.mpr
        exact ⟨m, mem_modules_after db cid m hm0 hd, by simp [hmeq]⟩
    · cases hcase : n.video_id with
      | none => simp [optionalRefOk]
      | some x =>
        rw [hcase] at hnv
        obtain ⟨v, hv0, hvb⟩ := List.any_eq_true.mp hnv
        have hveq : v.id = x := by simpa using hvb
        have hd := videoDeleted_false_of_kept_note_ref db cid n h6 v hv0
          (by rw [hcase, hveq])
        simp only [optionalRefOk]
        apply List.any_eq_true.mpr
        exact ⟨v, mem_videos_after db cid v hv0 hd, by simp [hveq]⟩

/-- C4 witness: the one-course sample store satisfies referential
integrity, and deleting its course leaves only the activity log entry
behind with no dangling rows. -/
theorem deleteCourse_cascades_no_orphans_witness : cascadeSpec sampleDb "c1" :=
  deleteCourse_cascades_no_orphans sampleDb "c1" (by decide)

end Schema
